import Mathlib

/-!
Verification of the build-and-link resolution pipeline of `cli/src/cmd/run.rs`
(`RunArgs::build`, `RunArgs::run`) against its natural-language specification.

The embedding follows the source:
* artifacts are indexed by the qualified key `source-file : contract-name`;
  a key is modelled as the pair of its two components (the source assumes
  the file path itself contains no colon, which is what `fname.split(':')`
  relies on in the source);
* machine integers (nonces, gas) are modelled as `Nat`; the source works
  with `U256` values far below the overflow bound, and `U256` addition
  panics rather than wraps, so no modular reduction is involved;
* fallible steps return `Except String` mirroring `eyre::bail!`, and
  aborts via `expect`/`panic` or missing data are explicit constructors
  of the result type of the presenter model.
-/

/-- An ABI is modelled by the list of its function names; the build logic
only ever asks whether a function named `setUp` is present. -/
abbrev Abi := List String

/-- Raw EVM bytecode, a byte sequence. -/
abbrev Bytes := List Nat

/-- `ethers::solc::artifacts::BytecodeObject`: either concrete bytes
(`Bytecode`, linked) or a template with unresolved library placeholders
(`Unlinked`). -/
inductive BytecodeObject where
  | linked (bytes : Bytes)
  | unlinked (template : String)
deriving DecidableEq

/-- `CompactContractBytecode`: optional ABI, optional creation bytecode,
optional runtime (deployed) bytecode. The two-level option of the deployed
bytecode wrapper in `ethers` is flattened, as in the design data model. -/
structure CompiledContract where
  abi : Option Abi
  bytecode : Option BytecodeObject
  runtime : Option BytecodeObject
deriving DecidableEq

/-- The default `CompactContractBytecode` the build loop starts from:
`{ abi: None, bytecode: None, deployed_bytecode: None }`. -/
def emptyContract : CompiledContract := ⟨none, none, none⟩

/-- Qualified artifact key: (source file, contract name), the two components
of the string key `source + ":" + name` built by the artifact indexer. -/
abbrev ArtifactKey := String × String

abbrev Entry := ArtifactKey × CompiledContract

/-- Abstraction of the `foundry_utils::recurse_link` call site: given the
artifact key, the unlinked creation-bytecode template and the runtime
bytecode, produce the linked creation bytecode, the linked runtime bytecode
and the ordered library deployment list. The target-resolution claims hold
for every such function, since the source performs matching independently
of what linking computed. -/
abbrev Linker := ArtifactKey → String → BytecodeObject →
  BytecodeObject × BytecodeObject × List Bytes

/-- One iteration of the build loop body (`run.rs` lines 344-414) up to the
target-matching step: artifacts missing the ABI, the creation bytecode or
the runtime bytecode never enter the `if let`; an already linked creation
bytecode that is empty is an abstract contract and is skipped with
`continue`; an `Unlinked` creation bytecode goes through `recurse_link`;
a non-empty linked one is kept unchanged with an empty dependency list.
`none` means the loop body reached `continue` (or never entered the
`if let`) for this artifact. -/
def processContract (lk : Linker) (key : ArtifactKey) (c : CompiledContract) :
    Option (List Bytes × CompiledContract) :=
  match c.abi, c.bytecode, c.runtime with
  | some abi, some bc, some rt =>
    match bc with
    | .unlinked t =>
      match lk key t rt with
      | (b, r, deps) => some (deps, ⟨some abi, some b, some r⟩)
    | .linked bytes =>
      if bytes.isEmpty then none
      else some ([], ⟨some abi, some (.linked bytes), some rt⟩)
  | _, _, _ => none

/-- An artifact takes part in the build loop exactly when its ABI, creation
bytecode and runtime bytecode are all present and its creation bytecode is
not an empty linked blob. -/
def eligible (c : CompiledContract) : Bool :=
  match c.abi, c.bytecode, c.runtime with
  | some _, some bc, some _ =>
    match bc with
    | .unlinked _ => true
    | .linked bytes => !bytes.isEmpty
  | _, _, _ => false

/-- The target specification: the canonicalized user-supplied path and the
optional `--target-contract` name. -/
structure TargetSpec where
  path : String
  name : Option String

/-- The matching test of the build loop: with no name, the source-file
component must equal the canonicalized path (`split[0] == target_fname`);
with a name, the full qualified key must equal `path:name`
(`&target_fname == fname`). -/
def isMatch (t : TargetSpec) (key : ArtifactKey) : Bool :=
  match t.name with
  | none => decide (key.1 = t.path)
  | some n => decide (key.1 = t.path ∧ key.2 = n)

/-- The artifacts the target resolver can actually select among: eligible
(not skipped by the loop) and matching the target specification. -/
def candidates (t : TargetSpec) (entries : List Entry) : List Entry :=
  entries.filter fun e => eligible e.2 && isMatch t e.1

/-- The mutable state threaded through the build loop: the selected
dependency list, the selected contract, the `highlevel_known_contracts`
map and the `matched` flag. -/
structure LoopState where
  runDeps : List Bytes
  contract : CompiledContract
  known : List (String × CompiledContract)
  matched : Bool
deriving DecidableEq

/-- Initial loop state (`run.rs` lines 327-339). -/
def initState : LoopState := ⟨[], emptyContract, [], false⟩

/-- `BTreeMap::insert` on the known-contracts map: replace the binding of
the key when present, append otherwise. -/
def insertKnown (k : String) (v : CompiledContract) :
    List (String × CompiledContract) → List (String × CompiledContract)
  | [] => [(k, v)]
  | (k2, v2) :: rest =>
    if k = k2 then (k, v) :: rest else (k2, v2) :: insertKnown k v rest

/-- The ambiguity error of `run.rs` line 399. -/
def ambiguousMsg : String :=
  "Multiple contracts in the target path. Please specify the contract name with `-t ContractName`"

/-- One iteration of the build loop including target matching
(`run.rs` lines 344-414): skipped artifacts leave the state untouched; a
processed artifact is matched against the target (bailing out with the
ambiguity error when a second match is seen and no name was given) and is
then inserted into the known-contracts map under its contract-name
component. -/
def buildStep (t : TargetSpec) (lk : Linker) (st : LoopState) (e : Entry) :
    Except String LoopState :=
  match processContract lk e.1 e.2 with
  | none => .ok st
  | some (deps, tc) =>
    if isMatch t e.1 then
      match t.name with
      | none =>
        if st.matched then .error ambiguousMsg
        else .ok ⟨deps, tc, insertKnown e.1.2 tc st.known, true⟩
      | some _ => .ok ⟨deps, tc, insertKnown e.1.2 tc st.known, true⟩
    else .ok { st with known := insertKnown e.1.2 tc st.known }

/-- The build loop over the sorted artifact index; `.error` models the
early return of `eyre::bail!`. -/
def buildLoop (t : TargetSpec) (lk : Linker) :
    LoopState → List Entry → Except String LoopState
  | st, [] => .ok st
  | st, e :: rest =>
    match buildStep t lk st e with
    | .error msg => .error msg
    | .ok st2 => buildLoop t lk st2 rest

/-- `RunArgs::build` target-selection phase: run the loop from the initial
state over the indexed artifacts. -/
def build (t : TargetSpec) (lk : Linker) (entries : List Entry) :
    Except String LoopState :=
  buildLoop t lk initState entries

/-- The starting nonce of `run.rs` lines 314-325. With a fork url the remote
transaction count is queried (`remoteCount = none` models a failed query);
`unwrap_or_default` turns a failure into the `U256` default `0`, and `1` is
added for the nonce the sender is about to consume. Without a fork url the
nonce starts from `U256::one()`. -/
def startNonce (forkUrl : Option String) (remoteCount : Option Nat) : Nat :=
  match forkUrl with
  | some _ => remoteCount.getD 0 + 1
  | none => 1

/-- `run.rs` lines 71-73: the debug flag overwrites the verbosity with `3`
before anything else runs. -/
def effectiveVerbosity (debug : Bool) (verbosity : Nat) : Nat :=
  if debug then 3 else verbosity

/-- Trace and identified-contract data are requested from the execution
engine exactly when the verbosity is above 2; this is the convention the
presenter relies on (its bail messages treat missing traces at verbosity
above 2 as an internal error). -/
def requestsTraces (verbosity : Nat) : Bool :=
  decide (2 < verbosity)

/-- Modelled from the spec: `DebugArena` of the `evm_adapters` debugger
crate is part of this repository but not under `src/` (only its consumer in
`run.rs` is). A debug-call arena is a tree of call frames; each frame
carries opaque step data, modelled by a numeric identifier. -/
inductive DebugNode where
  | mk (id : Nat) (children : List DebugNode)

mutual
/-- Modelled from the spec: `DebugArena::flatten` produces the call frames
in depth-first pre-order, the root frame first. -/
def DebugNode.flatten : DebugNode → List Nat
  | .mk i cs => i :: flattenList cs
/-- Pre-order flattening of a list of sibling subtrees, left to right. -/
def flattenList : List DebugNode → List Nat
  | [] => []
  | c :: cs => c.flatten ++ flattenList cs
end

mutual
/-- Total number of call frames in an arena. -/
def frameCount : DebugNode → Nat
  | .mk _ cs => 1 + frameCountList cs
/-- Total number of call frames in a list of sibling subtrees. -/
def frameCountList : List DebugNode → Nat
  | [] => 0
  | c :: cs => frameCount c + frameCountList cs
end

/-- `run.rs` line 104: the target needs a setup phase when its ABI contains
a function named `setUp`. -/
def needs_setup (abi : Abi) : Bool :=
  abi.any fun f => f == "setUp"

/-- `run.rs` line 170: the arena to hand to the debugger — the second one
when a setup phase ran and more than one arena was recorded, otherwise the
first. -/
def selectIndex (needsSetup : Bool) (calls : List DebugNode) : Nat :=
  if needsSetup = true ∧ 1 < calls.length then 1 else 0

/-- `run.rs` lines 170-173: flatten the selected arena and drop the first
(synthetic root) frame. -/
def debugSequence (ns : Bool) (calls : List DebugNode) : List Nat :=
  ((calls.getD (selectIndex ns calls) (.mk 0 [])).flatten).drop 1

/-- The execution-engine result consumed by the presenter: success flag,
gas, logs, optional traces (opaque trace records as numeric ids), optional
identified-contract data, optional debug-call arenas. -/
structure ExecutionResult where
  success : Bool
  gasUsed : Nat
  logs : List String
  traces : Option (List Nat)
  identified : Option Unit
  debugCalls : Option (List DebugNode)

/-- `run.rs` line 223. -/
def noTracesMsg : String :=
  "Unexpected error: No traces despite verbosity level. Please report this as a bug"

/-- `run.rs` line 225. -/
def noIdentifiedMsg : String :=
  "Unexpected error: No identified contracts. Please report this as a bug"

/-- Outcome of the result presenter (`run.rs` lines 141-238): which of the
mutually exclusive rendering paths is taken, with the data it prints.
`fatalDebugCallsMissing`, `fatalArenaIndex` and `fatalIdentifiedMissingDebug`
model the `expect`/index panics of the debug branch, in the order the source
hits them; `fatalNoTraces` and `fatalNoIdentified` model the two
`eyre::bail!` calls of the verbose branch. -/
inductive Rendered where
  | debugView (frames : List Nat)
  | verboseAll (traces : List Nat)
  | verboseLast (lastTrace : Nat)
  | verboseNoTraces
  | verboseSummary (success : Bool) (gasUsed : Nat) (logs : List String)
  | summary (success : Bool) (gasUsed : Nat) (logs : List String)
  | fatalDebugCallsMissing (msg : String)
  | fatalArenaIndex
  | fatalIdentifiedMissingDebug (msg : String)
  | fatalNoTraces (msg : String)
  | fatalNoIdentified (msg : String)

/-- The three-way presenter of `run.rs` lines 141-238, driven by the debug
flag and the (already forced) verbosity. -/
def present (debug : Bool) (verbosity : Nat) (needsSetup : Bool)
    (r : ExecutionResult) : Rendered :=
  if debug then
    match r.debugCalls with
    | none => .fatalDebugCallsMissing "Debug must be enabled by now"
    | some calls =>
      if calls.isEmpty then .fatalArenaIndex
      else
        match r.identified with
        | none => .fatalIdentifiedMissingDebug "debug but not verbosity"
        | some _ => .debugView (debugSequence needsSetup calls)
  else if 2 < verbosity then
    match r.traces, r.identified with
    | some traces, some _ =>
      if (r.success = false ∧ verbosity = 3) ∨ 3 < verbosity then
        if 4 < verbosity ∨ r.success = false then .verboseAll traces
        else if traces.isEmpty then .verboseNoTraces
        else .verboseLast (traces.getLast?.getD 0)
      else .verboseSummary r.success r.gasUsed r.logs
    | none, _ => .fatalNoTraces noTracesMsg
    | some _, none => .fatalNoIdentified noIdentifiedMsg
  else .summary r.success r.gasUsed r.logs

/-- Modelled from the spec: `foundry_utils::recurse_link` is code of this
repository that is not under `src/` (only its call site in `run.rs` is).
Following spec section 4.3: depth-first resolution over the link tree,
memoized through a resolved set; an unresolved library has its own link
references resolved first and is then recorded as resolved and appended to
the ordered deployment list. The spec states the recursion carries no
cycle guard, so none is modelled. `fuel` bounds the number of nested
calls and makes the naive recursion total: `none` means the recursion did
not complete within `fuel` calls, for instance because it recursed without
bound. Addresses and bytecode patching are irrelevant to the cycle claim
and are left out; a library is represented by its artifact key. -/
def resolveRefs : Nat → (String → List String) → List String → List String →
    List String → Option (List String × List String)
  | 0, _, _, _, _ => none
  | _ + 1, _, resolved, deps, [] => some (resolved, deps)
  | fuel + 1, tree, resolved, deps, lib :: rest =>
    if lib ∈ resolved then resolveRefs fuel tree resolved deps rest
    else
      match resolveRefs fuel tree resolved deps (tree lib) with
      | none => none
      | some (r, d) => resolveRefs fuel tree (lib :: r) (d ++ [lib]) rest

/-- Modelled from the spec: entry point of the naive recursive linker for
one target contract — resolve all link references of the target, returning
the ordered deployment list, or `none` when the recursion does not
complete within `fuel` nested calls. A target whose creation bytecode is
already linked has an empty reference list. -/
def recurse_link (fuel : Nat) (tree : String → List String) (target : String) :
    Option (List String) :=
  match resolveRefs fuel tree [] [] (tree target) with
  | none => none
  | some (_, deps) => some deps

/-- The mutually cyclic link tree of the spec edge case: contract `A`
references library `B` and `B` references `A`. -/
def cycTree : String → List String := fun s =>
  if s = "A" then ["B"] else if s = "B" then ["A"] else []

/-- A concrete linker used for evaluating the loop on closed inputs. -/
def lk0 : Linker := fun _ _ rt => (.linked [0], rt, [])

/-- A concrete fully linked contract. -/
def contractA : CompiledContract :=
  ⟨some ["run"], some (.linked [1]), some (.linked [2])⟩

/-- A concrete abstract contract or interface: linked but empty creation
bytecode. -/
def contractI : CompiledContract :=
  ⟨some [], some (.linked []), some (.linked [])⟩

/-- A second concrete fully linked contract. -/
def contractB : CompiledContract :=
  ⟨some ["run", "setUp"], some (.linked [3]), some (.linked [4])⟩

/-- A concrete artifact set: two concrete contracts and one interface, all
in the same source file. -/
def sampleEntries : List Entry :=
  [(("F.sol", "A"), contractA), (("F.sol", "I"), contractI)]

/-- A concrete two-level arena: a root with two children, each child with
one grandchild; five frames in total. -/
def sampleArena : DebugNode :=
  .mk 0 [.mk 1 [.mk 2 []], .mk 3 [.mk 4 []]]

/-- Two eligible contracts in the same source file: an ambiguous target. -/
def sampleEntries2 : List Entry :=
  [(("F.sol", "A"), contractA), (("F.sol", "B"), contractB)]

/-- A concrete execution result with trace data absent at high verbosity. -/
def sampleResultNoTraces : ExecutionResult :=
  ⟨true, 0, [], none, some (), none⟩

/-- A concrete failed execution result carrying two trace records. -/
def sampleResultTraces : ExecutionResult :=
  ⟨false, 21000, ["hello"], some [5, 7], some (), none⟩

/-- Two recorded arenas: a setup-call arena followed by the sample arena. -/
def sampleCalls : List DebugNode := [.mk 9 [], sampleArena]

theorem processContract_none_iff (lk : Linker) (k : ArtifactKey) (c : CompiledContract) :
    processContract lk k c = none ↔ eligible c = false := by
  rcases c with ⟨abi, bc, rt⟩
  cases abi <;> cases bc <;> cases rt <;> simp [processContract, eligible]
  case some.some.some a b r =>
    cases b with
    | linked bytes =>
      cases bytes <;> simp [processContract, eligible]
    | unlinked t =>
      rcases h : lk k t r with ⟨x, y, z⟩
      simp [processContract, eligible, h]

theorem processContract_some_of_eligible (lk : Linker) (k : ArtifactKey)
    (c : CompiledContract) (h : eligible c = true) :
    ∃ deps tc, processContract lk k c = some (deps, tc) := by
  cases hp : processContract lk k c with
  | none =>
    rw [processContract_none_iff] at hp
    rw [h] at hp
    exact absurd hp (by simp)
  | some v =>
    obtain ⟨deps, tc⟩ := v
    exact ⟨deps, tc, rfl⟩

theorem buildStep_skip (t : TargetSpec) (lk : Linker) (st : LoopState) (e : Entry)
    (hc : processContract lk e.1 e.2 = none) :
    buildStep t lk st e = .ok st := by
  simp [buildStep, hc]

theorem buildStep_nomatch (t : TargetSpec) (lk : Linker) (st : LoopState) (e : Entry)
    (deps : List Bytes) (tc : CompiledContract)
    (hc : processContract lk e.1 e.2 = some (deps, tc))
    (hm : isMatch t e.1 = false) :
    buildStep t lk st e = .ok { st with known := insertKnown e.1.2 tc st.known } := by
  simp [buildStep, hc, hm]

theorem buildStep_match_fresh (t : TargetSpec) (lk : Linker) (st : LoopState) (e : Entry)
    (deps : List Bytes) (tc : CompiledContract)
    (hc : processContract lk e.1 e.2 = some (deps, tc))
    (hm : isMatch t e.1 = true) (hf : st.matched = false) :
    buildStep t lk st e = .ok ⟨deps, tc, insertKnown e.1.2 tc st.known, true⟩ := by
  cases hn : t.name <;> simp [buildStep, hc, hm, hf, hn]

theorem buildStep_match_dup (t : TargetSpec) (lk : Linker) (st : LoopState) (e : Entry)
    (deps : List Bytes) (tc : CompiledContract)
    (hn : t.name = none)
    (hc : processContract lk e.1 e.2 = some (deps, tc))
    (hm : isMatch t e.1 = true) (hf : st.matched = true) :
    buildStep t lk st e = .error ambiguousMsg := by
  simp [buildStep, hc, hm, hf, hn]

theorem loop_no_candidates (t : TargetSpec) (lk : Linker) :
    ∀ (entries : List Entry) (st : LoopState), candidates t entries = [] →
    ∃ kn, buildLoop t lk st entries = .ok ⟨st.runDeps, st.contract, kn, st.matched⟩ := by
  intro entries
  induction entries with
  | nil =>
    intro st _
    exact ⟨st.known, rfl⟩
  | cons e rest ih =>
    intro st h
    by_cases hp : (eligible e.2 && isMatch t e.1) = true
    · rw [candidates, List.filter_cons, if_pos hp] at h
      exact absurd h (List.cons_ne_nil _ _)
    · rw [candidates, List.filter_cons, if_neg hp] at h
      replace h : candidates t rest = [] := h
      cases hpc : processContract lk e.1 e.2 with
      | none =>
        rw [buildLoop, buildStep_skip t lk st e hpc]
        exact ih st h
      | some v =>
        obtain ⟨deps, tc⟩ := v
        have hel : eligible e.2 = true := by
          by_contra hfail
          rw [Bool.not_eq_true, ← processContract_none_iff lk e.1 e.2, hpc] at hfail
          exact Option.some_ne_none _ hfail
        have hm : isMatch t e.1 = false := by
          cases hmm : isMatch t e.1
          · rfl
          · exact absurd (by rw [Bool.and_eq_true]; exact ⟨hel, hmm⟩) hp
        rw [buildLoop, buildStep_nomatch t lk st e deps tc hpc hm]
        exact ih { st with known := insertKnown e.1.2 tc st.known } h


theorem loop_single_candidate (t : TargetSpec) (lk : Linker) :
    ∀ (entries : List Entry) (st : LoopState) (e0 : Entry), st.matched = false →
    candidates t entries = [e0] →
    ∃ deps tc kn, processContract lk e0.1 e0.2 = some (deps, tc) ∧
      buildLoop t lk st entries = .ok ⟨deps, tc, kn, true⟩ := by
  intro entries
  induction entries with
  | nil =>
    intro st e0 _ h
    exact absurd h (by simp [candidates])
  | cons e rest ih =>
    intro st e0 hf h
    by_cases hp : (eligible e.2 && isMatch t e.1) = true
    · rw [candidates, List.filter_cons, if_pos hp] at h
      rw [List.cons_eq_cons] at h
      obtain ⟨he, hrest⟩ := h
      rw [Bool.and_eq_true] at hp
      obtain ⟨deps, tc, hpc⟩ := processContract_some_of_eligible lk e.1 e.2 hp.1
      refine ⟨deps, tc, ?_⟩
      rw [buildLoop, buildStep_match_fresh t lk st e deps tc hpc hp.2 hf]
      obtain ⟨kn, hloop⟩ :=
        loop_no_candidates t lk rest ⟨deps, tc, insertKnown e.1.2 tc st.known, true⟩ hrest
      rw [← he]
      exact ⟨kn, hpc, hloop⟩
    · rw [candidates, List.filter_cons, if_neg hp] at h
      replace h : candidates t rest = [e0] := h
      cases hpc : processContract lk e.1 e.2 with
      | none =>
        rw [buildLoop, buildStep_skip t lk st e hpc]
        exact ih st e0 hf h
      | some v =>
        obtain ⟨deps, tc⟩ := v
        have hel : eligible e.2 = true := by
          by_contra hfail
          rw [Bool.not_eq_true, ← processContract_none_iff lk e.1 e.2, hpc] at hfail
          exact Option.some_ne_none _ hfail
        have hm : isMatch t e.1 = false := by
          cases hmm : isMatch t e.1
          · rfl
          · exact absurd (by rw [Bool.and_eq_true]; exact ⟨hel, hmm⟩) hp
        rw [buildLoop, buildStep_nomatch t lk st e deps tc hpc hm]
        exact ih { st with known := insertKnown e.1.2 tc st.known } e0 hf h

theorem loop_ambiguous (t : TargetSpec) (lk : Linker) (hn : t.name = none) :
    ∀ (entries : List Entry) (st : LoopState),
    ((st.matched = true ∧ candidates t entries ≠ []) ∨
      2 ≤ (candidates t entries).length) →
    buildLoop t lk st entries = .error ambiguousMsg := by
  intro entries
  induction entries with
  | nil =>
    intro st h
    rcases h with ⟨_, hne⟩ | hlen
    · exact absurd (by simp [candidates]) hne
    · simp [candidates] at hlen
  | cons e rest ih =>
    intro st h
    by_cases hp : (eligible e.2 && isMatch t e.1) = true
    · rw [Bool.and_eq_true] at hp
      obtain ⟨deps, tc, hpc⟩ := processContract_some_of_eligible lk e.1 e.2 hp.1
      cases hf : st.matched with
      | true =>
        rw [buildLoop, buildStep_match_dup t lk st e deps tc hn hpc hp.2 hf]
      | false =>
        have hlen : 2 ≤ (candidates t (e :: rest)).length := by
          rcases h with ⟨hm, _⟩ | hlen
          · rw [hf] at hm; exact absurd hm (by simp)
          · exact hlen
        rw [candidates, List.filter_cons,
          if_pos (Bool.and_eq_true .. |>.mpr hp)] at hlen
        have hrest : candidates t rest ≠ [] := by
          intro hemp
          rw [candidates] at hemp
          rw [hemp] at hlen
          simp at hlen
        rw [buildLoop, buildStep_match_fresh t lk st e deps tc hpc hp.2 hf]
        exact ih ⟨deps, tc, insertKnown e.1.2 tc st.known, true⟩ (Or.inl ⟨rfl, hrest⟩)
    · have hcand : candidates t (e :: rest) = candidates t rest := by
        rw [candidates, List.filter_cons, if_neg hp]; rfl
      rw [hcand] at h
      cases hpc : processContract lk e.1 e.2 with
      | none =>
        rw [buildLoop, buildStep_skip t lk st e hpc]
        exact ih st h
      | some v =>
        obtain ⟨deps, tc⟩ := v
        have hel : eligible e.2 = true := by
          by_contra hfail
          rw [Bool.not_eq_true, ← processContract_none_iff lk e.1 e.2, hpc] at hfail
          exact Option.some_ne_none _ hfail
        have hm : isMatch t e.1 = false := by
          cases hmm : isMatch t e.1
          · rfl
          · exact absurd (by rw [Bool.and_eq_true]; exact ⟨hel, hmm⟩) hp
        rw [buildLoop, buildStep_nomatch t lk st e deps tc hpc hm]
        exact ih { st with known := insertKnown e.1.2 tc st.known } h

theorem eligible_false_iff (c : CompiledContract) :
    eligible c = false ↔
      (c.abi = none ∨ c.bytecode = none ∨ c.runtime = none ∨
        c.bytecode = some (.linked [])) := by
  rcases c with ⟨abi, bc, rt⟩
  cases abi <;> cases bc <;> cases rt <;> simp [eligible]
  case some.some.some a b r =>
    cases b with
    | linked bytes => cases bytes <;> simp
    | unlinked t => simp

theorem loop_skips_ineligible (t : TargetSpec) (lk : Linker) :
    ∀ (front : List Entry) (st : LoopState) (back : List Entry)
      (k : ArtifactKey) (c : CompiledContract), eligible c = false →
    buildLoop t lk st (front ++ (k, c) :: back) = buildLoop t lk st (front ++ back) := by
  intro front
  induction front with
  | nil =>
    intro st back k c h
    have hpc : processContract lk k c = none := (processContract_none_iff lk k c).mpr h
    rw [List.nil_append, List.nil_append, buildLoop, buildStep_skip t lk st (k, c) hpc]
  | cons f fs ih =>
    intro st back k c h
    rw [List.cons_append, List.cons_append, buildLoop, buildLoop]
    cases hstep : buildStep t lk st f with
    | error msg => rfl
    | ok st2 => exact ih st2 back k c h

mutual
theorem flatten_length : ∀ n : DebugNode, (DebugNode.flatten n).length = frameCount n
  | .mk i cs => by
    rw [DebugNode.flatten, frameCount, List.length_cons, flattenList_length cs]
    omega
theorem flattenList_length : ∀ cs : List DebugNode, (flattenList cs).length = frameCountList cs
  | [] => by rw [flattenList, frameCountList]; rfl
  | c :: cs => by
    rw [flattenList, frameCountList, List.length_append, flatten_length c,
      flattenList_length cs]
end

theorem frameCount_pos (n : DebugNode) : 1 ≤ frameCount n := by
  cases n with
  | mk i cs => rw [frameCount]; omega

theorem resolveRefs_cycle (fuel : Nat) :
    resolveRefs fuel cycTree [] [] ["A"] = none ∧
    resolveRefs fuel cycTree [] [] ["B"] = none := by
  induction fuel with
  | zero => exact ⟨rfl, rfl⟩
  | succ n ih =>
    constructor
    · rw [resolveRefs, if_neg (List.not_mem_nil _)]
      have h : cycTree "A" = ["B"] := rfl
      rw [h, ih.2]
    · rw [resolveRefs, if_neg (List.not_mem_nil _)]
      have h : cycTree "B" = ["A"] := rfl
      rw [h, ih.1]

/-- C3: on the mutually cyclic link graph where contract A references
library B and B references A, the naive recursive linker modelled from the
spec never completes, whatever recursion bound is allowed: it neither
terminates with a deployment list nor reports a cycle error, so building a
contract in the cycle recurses without bound instead of failing with the
fatal cycle error the claim requires. -/
theorem C3_cycle_unbounded_recursion :
    ∀ fuel : Nat, recurse_link fuel cycTree "A" = none ∧
      recurse_link fuel cycTree "B" = none := by
  intro fuel
  constructor
  · rw [recurse_link]
    have h : cycTree "A" = ["B"] := rfl
    rw [h, (resolveRefs_cycle fuel).2]
  · rw [recurse_link]
    have h : cycTree "B" = ["A"] := rfl
    rw [h, (resolveRefs_cycle fuel).1]

/-- C4: a contract whose creation bytecode is already linked (and
non-empty, so the build loop keeps it) undergoes no linking step: for every
linker the loop body returns it with an empty predeploy-dependency list and
with the creation and runtime bytecodes unchanged. -/
theorem C4_linked_bytecode_untouched (lk : Linker) (k : ArtifactKey) (a : Abi)
    (rt : BytecodeObject) (bs : Bytes) (h : bs ≠ []) :
    processContract lk k ⟨some a, some (.linked bs), some rt⟩ =
      some ([], ⟨some a, some (.linked bs), some rt⟩) := by
  cases bs with
  | nil => exact absurd rfl h
  | cons x xs => simp [processContract]

/-- Witness for C4 at a concrete linked contract. -/
theorem C4_witness :
    processContract lk0 ("F.sol", "A") ⟨some ["run"], some (.linked [1]), some (.linked [2])⟩ =
      some ([], ⟨some ["run"], some (.linked [1]), some (.linked [2])⟩) :=
  C4_linked_bytecode_untouched lk0 ("F.sol", "A") ["run"] (.linked [2]) [1] (by decide)

/-- C5: the starting nonce is the remote transaction count plus one when a
fork endpoint is supplied and the query succeeds; exactly 1 when no
endpoint is supplied; and on query failure the build proceeds with the
default-based value 0 + 1 instead of aborting. -/
theorem C5_start_nonce (url : String) (count : Nat) (q : Option Nat) :
    startNonce (some url) (some count) = count + 1 ∧
    startNonce none q = 1 ∧
    startNonce (some url) none = 0 + 1 :=
  ⟨rfl, rfl, rfl⟩

/-- C9: with the debug flag set, the verbosity is forced to 3 regardless of
the user-supplied value, and 3 is above the threshold at which trace and
contract-identification data are requested from the execution engine. -/
theorem C9_debug_forces_verbosity (userVerbosity : Nat) :
    effectiveVerbosity true userVerbosity = 3 ∧
    requestsTraces (effectiveVerbosity true userVerbosity) = true :=
  ⟨rfl, rfl⟩

/-- C6: in the non-debug presenter, whenever verbosity is above 2 and the
trace data or the identified-contract data is absent from the execution
result, the run ends in one of the two fatal internal-consistency errors
whose messages flag a bug to report, and no verbose output is rendered. -/
theorem C6_verbose_missing_data_fatal (verbosity : Nat) (setup : Bool)
    (r : ExecutionResult) (hv : 2 < verbosity)
    (h : r.traces = none ∨ r.identified = none) :
    present false verbosity setup r = .fatalNoTraces noTracesMsg ∨
    present false verbosity setup r = .fatalNoIdentified noIdentifiedMsg := by
  rcases ht : r.traces with _ | ts
  · left
    simp [present, hv, ht]
  · rcases hi : r.identified with _ | u
    · right
      simp [present, hv, ht, hi]
    · rcases h with h | h
      · rw [ht] at h
        exact absurd h (by simp)
      · rw [hi] at h
        exact absurd h (by simp)

/-- Witness for C6 at a concrete result with missing traces. -/
theorem C6_witness :
    present false 3 false sampleResultNoTraces = .fatalNoTraces noTracesMsg ∨
    present false 3 false sampleResultNoTraces = .fatalNoIdentified noIdentifiedMsg :=
  C6_verbose_missing_data_fatal 3 false sampleResultNoTraces (by decide) (Or.inl rfl)

/-- C7: in verbose-trace mode (verbosity above 2, traces and identified
contracts present), every recorded trace is printed exactly when the
execution failed or verbosity is above 4 (the highest tier), and only the
last recorded trace is printed exactly when execution succeeded at the
middle tier, verbosity 4, with at least one trace recorded. -/
theorem C7_verbose_trace_selection (verbosity : Nat) (setup : Bool)
    (r : ExecutionResult) (ts : List Nat)
    (hv : 2 < verbosity) (ht : r.traces = some ts) (hi : r.identified = some ()) :
    (present false verbosity setup r = .verboseAll ts ↔
      (r.success = false ∨ 4 < verbosity)) ∧
    (r.success = true → verbosity = 4 → ts ≠ [] →
      present false verbosity setup r = .verboseLast (ts.getLast?.getD 0)) ∧
    (∀ x, present false verbosity setup r = .verboseLast x →
      r.success = true ∧ verbosity = 4) := by
  rcases r with ⟨succ, gas, lgs, tr, idf, dbg⟩
  simp only at ht hi
  subst ht
  subst hi
  cases succ with
  | false =>
    have hall : present false verbosity setup
        ⟨false, gas, lgs, some ts, some (), dbg⟩ = .verboseAll ts := by
      simp [present, hv]
      omega
    refine ⟨by simp [hall], by simp, fun x hx => ?_⟩
    rw [hall] at hx
    exact absurd hx (by simp)
  | true =>
    rcases Nat.lt_or_ge 4 verbosity with h4 | h4
    · have hall : present false verbosity setup
          ⟨true, gas, lgs, some ts, some (), dbg⟩ = .verboseAll ts := by
        simp [present, hv, h4]
        omega
      refine ⟨by simp [hall, h4], fun _ h => by omega, fun x hx => ?_⟩
      rw [hall] at hx
      exact absurd hx (by simp)
    · rcases Nat.lt_or_ge 3 verbosity with h3 | h3
      · have hv4 : verbosity = 4 := by omega
        subst hv4
        by_cases hts : ts = []
        · have hout : present false 4 setup
              ⟨true, gas, lgs, some ts, some (), dbg⟩ = .verboseNoTraces := by
            simp [present, hts]
          refine ⟨by simp [hout], fun _ _ h => absurd hts h, fun x hx => ?_⟩
          rw [hout] at hx
          exact absurd hx (by simp)
        · have hout : present false 4 setup ⟨true, gas, lgs, some ts, some (), dbg⟩ =
              .verboseLast (ts.getLast?.getD 0) := by
            simp [present, hts]
          exact ⟨by simp [hout], fun _ _ _ => hout, fun x hx => ⟨rfl, rfl⟩⟩
      · have hv3 : verbosity = 3 := by omega
        subst hv3
        have hout : present false 3 setup ⟨true, gas, lgs, some ts, some (), dbg⟩ =
            .verboseSummary true gas lgs := by
          simp [present]
        refine ⟨by simp [hout], fun _ h => by omega, fun x hx => ?_⟩
        rw [hout] at hx
        exact absurd hx (by simp)

/-- Witness for C7 at a concrete failed execution with two traces at
verbosity 3: every recorded trace is printed. -/
theorem C7_witness :
    present false 3 false sampleResultTraces = .verboseAll [5, 7] :=
  (C7_verbose_trace_selection 3 false sampleResultTraces [5, 7]
    (by decide) rfl rfl).1.mpr (Or.inl rfl)

/-- C8: in debug mode the presenter hands the viewer the selected arena
flattened in depth-first pre-order with the synthetic root frame dropped,
so the sequence length plus one equals the total frame count of the
selected arena; the second arena (index 1) is selected exactly when the
target ABI contains a setUp function and more than one arena was recorded,
the first (index 0) otherwise, and the selected index always addresses a
recorded arena. -/
theorem C8_debug_arena_selection (abi : Abi) (calls : List DebugNode)
    (h : calls ≠ []) :
    (debugSequence (needs_setup abi) calls).length + 1 =
      frameCount (calls.getD (selectIndex (needs_setup abi) calls) (.mk 0 [])) ∧
    (selectIndex (needs_setup abi) calls = 1 ↔
      ("setUp" ∈ abi ∧ 1 < calls.length)) ∧
    selectIndex (needs_setup abi) calls < calls.length := by
  have hmem : needs_setup abi = true ↔ "setUp" ∈ abi := by
    simp [needs_setup]
  refine ⟨?_, ?_, ?_⟩
  · rw [debugSequence, List.length_drop, flatten_length]
    have hpos := frameCount_pos
      (calls.getD (selectIndex (needs_setup abi) calls) (.mk 0 []))
    omega
  · rw [selectIndex]
    by_cases hc : needs_setup abi = true ∧ 1 < calls.length
    · rw [if_pos hc]
      simp [hmem.mp hc.1, hc.2]
    · rw [if_neg hc]
      rw [not_and_or] at hc
      rcases hc with hc | hc
      · simp only [Bool.not_eq_true] at hc
        have : ¬"setUp" ∈ abi := fun hm => by
          rw [← hmem] at hm
          rw [hm] at hc
          exact absurd hc (by simp)
        simp [this]
      · simp [hc]
  · rw [selectIndex]
    by_cases hc : needs_setup abi = true ∧ 1 < calls.length
    · rw [if_pos hc]
      exact hc.2
    · rw [if_neg hc]
      exact List.length_pos.mpr h

/-- Witness for C8: a setup arena followed by a five-frame arena (root with
two children, each with one grandchild) and an ABI with a setUp function:
the second arena is selected and the flattened sequence has four frames. -/
theorem C8_witness :
    ((debugSequence (needs_setup ["setUp"]) sampleCalls).length + 1 =
      frameCount (sampleCalls.getD
        (selectIndex (needs_setup ["setUp"]) sampleCalls) (.mk 0 [])) ∧
    (selectIndex (needs_setup ["setUp"]) sampleCalls = 1 ↔
      ("setUp" ∈ (["setUp"] : Abi) ∧ 1 < sampleCalls.length)) ∧
    selectIndex (needs_setup ["setUp"]) sampleCalls < sampleCalls.length) ∧
    (debugSequence (needs_setup ["setUp"]) sampleCalls).length = 4 :=
  ⟨C8_debug_arena_selection ["setUp"] sampleCalls (List.cons_ne_nil _ _), rfl⟩

/-- C1 counterexample: two indexed contracts share the source file
`F.sol`, so by the claim the no-name build should fail as ambiguous; the
source instead succeeds and selects one of them, because the second is an
interface (empty linked creation bytecode) that the loop skips before
matching. -/
theorem C1_counterexample :
    ((sampleEntries.filter fun e => decide (e.1.1 = "F.sol")).length = 2) ∧
    build ⟨"F.sol", none⟩ lk0 sampleEntries =
      .ok ⟨[], contractA, [("A", contractA)], true⟩ := by
  constructor
  · rfl
  · rfl

/-- C1 (amended): with no explicit target name, the resolver considers
exactly the eligible indexed contracts (ABI, creation bytecode and runtime
bytecode present, creation bytecode not an empty linked blob) whose
source-file component equals the canonicalized path: two or more such
candidates fail the build with the ambiguous-target error, and a unique
candidate is selected together with its resolved dependency list. -/
theorem C1_resolver_no_name (lk : Linker) (path : String) (entries : List Entry) :
    (2 ≤ (candidates ⟨path, none⟩ entries).length →
      build ⟨path, none⟩ lk entries = .error ambiguousMsg) ∧
    (∀ e, candidates ⟨path, none⟩ entries = [e] →
      ∃ deps tc kn, processContract lk e.1 e.2 = some (deps, tc) ∧
        build ⟨path, none⟩ lk entries = .ok ⟨deps, tc, kn, true⟩) := by
  constructor
  · intro hlen
    exact loop_ambiguous ⟨path, none⟩ lk rfl entries initState (Or.inr hlen)
  · intro e he
    exact loop_single_candidate ⟨path, none⟩ lk entries initState e rfl he

/-- Witness for C1 at a concrete artifact set with two eligible contracts
in the target path: the build fails with the ambiguity error. -/
theorem C1_witness :
    2 ≤ (candidates ⟨"F.sol", none⟩ sampleEntries2).length ∧
    build ⟨"F.sol", none⟩ lk0 sampleEntries2 = .error ambiguousMsg :=
  ⟨by decide, (C1_resolver_no_name lk0 "F.sol" sampleEntries2).1 (by decide)⟩

/-- C2 counterexample: no indexed contract has the qualified key
`F.sol:Missing`, yet the build returns successfully, carrying the default
empty contract and no recorded match, instead of failing with a fatal
not-found error. -/
theorem C2_counterexample :
    ((sampleEntries.filter fun e =>
        decide (e.1 = (("F.sol", "Missing") : ArtifactKey))).length = 0) ∧
    build ⟨"F.sol", some "Missing"⟩ lk0 sampleEntries =
      .ok ⟨[], emptyContract, [("A", contractA)], false⟩ := by
  constructor
  · rfl
  · rfl

/-- C2 (amended): with an explicit target name, the unique eligible
contract whose qualified key equals path and name is selected together
with its dependency list; when no eligible indexed contract has that key,
the build still returns successfully, with the default empty contract and
the matched flag unset — the missing target only aborts the run later,
when the runner unwraps the absent ABI. -/
theorem C2_resolver_named (lk : Linker) (path n : String) (entries : List Entry) :
    (candidates ⟨path, some n⟩ entries = [] →
      ∃ kn, build ⟨path, some n⟩ lk entries = .ok ⟨[], emptyContract, kn, false⟩) ∧
    (∀ e, candidates ⟨path, some n⟩ entries = [e] →
      ∃ deps tc kn, processContract lk e.1 e.2 = some (deps, tc) ∧
        build ⟨path, some n⟩ lk entries = .ok ⟨deps, tc, kn, true⟩) := by
  constructor
  · intro hc
    exact loop_no_candidates ⟨path, some n⟩ lk entries initState hc
  · intro e he
    exact loop_single_candidate ⟨path, some n⟩ lk entries initState e rfl he

/-- Witness for C2: naming the existing contract B selects it; the build
succeeds with B and its dependency list. -/
theorem C2_witness :
    candidates ⟨"F.sol", some "B"⟩ sampleEntries2 = [(("F.sol", "B"), contractB)] ∧
    (∃ deps tc kn,
      processContract lk0 ("F.sol", "B") contractB = some (deps, tc) ∧
      build ⟨"F.sol", some "B"⟩ lk0 sampleEntries2 = .ok ⟨deps, tc, kn, true⟩) :=
  ⟨by decide,
    (C2_resolver_named lk0 "F.sol" "B" sampleEntries2).2
      (("F.sol", "B"), contractB) (by decide)⟩

/-- C10: an artifact is skipped by the build loop exactly when it misses
the ABI, the creation bytecode or the runtime bytecode, or its creation
bytecode is linked but empty (abstract contract or interface); inserting
such an artifact anywhere in the index leaves the whole loop outcome
unchanged, so it is never inserted into the known-contracts map, never
counts as a candidate during target matching, and neither triggers nor
resolves an ambiguous-target error. -/
theorem C10_skipped_artifacts (t : TargetSpec) (lk : Linker) (st : LoopState)
    (front back : List Entry) (k : ArtifactKey) (c : CompiledContract) :
    (eligible c = false ↔
      (c.abi = none ∨ c.bytecode = none ∨ c.runtime = none ∨
        c.bytecode = some (.linked []))) ∧
    (eligible c = false →
      buildLoop t lk st (front ++ (k, c) :: back) =
        buildLoop t lk st (front ++ back)) :=
  ⟨eligible_false_iff c, fun h => loop_skips_ineligible t lk front st back k c h⟩

/-- Witness for C10: inserting the interface between two concrete
artifacts does not change the loop outcome. -/
theorem C10_witness :
    buildLoop ⟨"F.sol", none⟩ lk0 initState
        ([(("F.sol", "A"), contractA)] ++ (("F.sol", "I"), contractI) ::
          [(("F.sol", "B"), contractB)]) =
      buildLoop ⟨"F.sol", none⟩ lk0 initState
        ([(("F.sol", "A"), contractA)] ++ [(("F.sol", "B"), contractB)]) :=
  (C10_skipped_artifacts ⟨"F.sol", none⟩ lk0 initState
    [(("F.sol", "A"), contractA)] [(("F.sol", "B"), contractB)]
    ("F.sol", "I") contractI).2 (by decide)
